import Mathlib

/-
Verification of the stanford-mcp request router against its specification.

The definitions below are a shallow embedding of the Python sources:
  - src/auth.py                      (require_bearer_token)
  - src/tools/__init__.py            (register_all_tools, _call_register_if_present)
  - src/tools/course_catalog/course_catalog.py
        (_parse_time_to_minutes, _format_conflict_line,
         check_time_conflicts_handler, list_schools_handler, get_course_handler)
  - src/tools/weather/weather.py     (get_alerts_handler)
  - src/tools/notification.py        (start)

Python runtime values that flow through handler arguments are modelled by
`PyVal`.  Machine strings are Lean `String`s, manipulated at the `List Char`
level so that every definition evaluates inside the kernel.  Fallible Python
code (code that can raise) is modelled with `Except String`, the error string
being the exception message.
-/

namespace StanfordMCP

/-- Model of a Python value as it arrives in a handler argument mapping.
Floats are restricted to integral values, which are the only float values the
modelled claims exercise; `float n` models the Python float `n.0`. -/
inductive PyVal where
  | none : PyVal
  | bool (b : Bool) : PyVal
  | int (n : Int) : PyVal
  | float (n : Int) : PyVal
  | str (s : String) : PyVal
  | list (xs : List PyVal) : PyVal
  | dict (fields : List (String × PyVal)) : PyVal

/-- Python `type(v).__name__` for the modelled values. -/
def pyTypeName : PyVal → String
  | PyVal.none => "NoneType"
  | PyVal.bool _ => "bool"
  | PyVal.int _ => "int"
  | PyVal.float _ => "float"
  | PyVal.str _ => "str"
  | PyVal.list _ => "list"
  | PyVal.dict _ => "dict"

/-- Python `str(v)` for the values that reach an f-string in the modelled
handlers (numbers, booleans, strings, None).  Containers never reach an
f-string on the modelled paths, so their rendering is a placeholder. -/
def pyStr : PyVal → String
  | PyVal.none => "None"
  | PyVal.bool b => if b then "True" else "False"
  | PyVal.int n => toString n
  | PyVal.float n => toString n ++ ".0"
  | PyVal.str s => s
  | PyVal.list _ => "[...]"
  | PyVal.dict _ => "{...}"

/-- Python `d.get(k)` on an argument mapping: the stored value, or `None`
when the key is absent. -/
def pyDictGet (fields : List (String × PyVal)) (k : String) : PyVal :=
  match fields.find? (fun kv => kv.1 = k) with
  | Option.none => PyVal.none
  | some kv => kv.2

/-- Python `d.get(k, default)` on an argument mapping. -/
def pyDictGetD (fields : List (String × PyVal)) (k : String) (d : PyVal) : PyVal :=
  match fields.find? (fun kv => kv.1 = k) with
  | Option.none => d
  | some kv => kv.2

/-- Python `isinstance(v, (int, float))`.  A Python `bool` is a subclass of
`int`, so booleans pass this check. -/
def isPyNumber : PyVal → Bool
  | PyVal.int _ => true
  | PyVal.float _ => true
  | PyVal.bool _ => true
  | _ => false

/-- Numeric value of a Python number, under the modelling of floats as
integral; `True == 1` and `False == 0` in Python. -/
def pyNumVal : PyVal → Int
  | PyVal.int n => n
  | PyVal.float n => n
  | PyVal.bool b => if b then 1 else 0
  | _ => 0

/-- Character-level model of Python `str.strip()` (whitespace at both ends). -/
def stripChars (cs : List Char) : List Char :=
  ((cs.dropWhile Char.isWhitespace).reverse.dropWhile Char.isWhitespace).reverse

/-- Character-level model of Python `str.lower()` (ASCII case folding). -/
def lowerChars (cs : List Char) : List Char := cs.map Char.toLower

/-- Character-level model of Python `str.upper()` (ASCII case folding). -/
def upperChars (cs : List Char) : List Char := cs.map Char.toUpper

/-- Python `str.lower()` on a `String`. -/
def lowerStr (s : String) : String := String.mk (lowerChars s.toList)

/-- Python `s.startswith(p)`. -/
def strStartsWith (s p : String) : Bool := List.isPrefixOf p.toList s.toList

/-- Remainder after the first space, i.e. `s.split(" ", 1)[1]` in Python.
In Python this indexing raises when no space exists; it is only reached
behind a guard that guarantees a space, where the two agree. -/
def afterFirstSpaceChars : List Char → List Char
  | [] => []
  | c :: r => if c = ' ' then r else afterFirstSpaceChars r

/-- Python `s.split(" ", 1)[1]` on a `String` (guarded use only). -/
def afterFirstSpace (s : String) : String := String.mk (afterFirstSpaceChars s.toList)

/-
Time parsing: `_parse_time_to_minutes` (course_catalog.py lines 278-294).
The Python code tries `datetime.strptime` with the formats
  "%I:%M %p", "%I:%M%p", "%I:%M:%S %p", "%H:%M", "%H:%M:%S"
in order and returns `t.hour * 60 + t.minute` for the first format that
matches the whole string.  CPython strptime compiles each directive to a
regular expression: %I is `1[0-2]|0[1-9]|[1-9]`, %H is `2[0-3]|[0-1]\d|\d`,
%M is `[0-5]\d|\d`, %S is `6[0-1]|[0-5]\d|\d`, a literal space is `\s+`, and
%p matches AM/PM case-insensitively.  The parsers below reproduce those
regular expressions with their alternation order and backtracking: a numeric
field yields the two-digit reading first (when its two-digit alternatives
allow it) and then the one-digit reading, and a combination is accepted only
when the whole input is consumed.
-/

/-- Value of a decimal digit character, `None` for non-digits. -/
def digitVal? (c : Char) : Option Nat :=
  if 48 ≤ c.toNat ∧ c.toNat ≤ 57 then some (c.toNat - 48) else none

/-- All readings of a 1-2 digit numeric strptime field, in regex alternation
order: the two-digit reading (provided `v2` accepts it) and then the
one-digit reading (provided `v1` accepts it). -/
def parseField (v2 v1 : Nat → Bool) : List Char → List (Nat × List Char)
  | [] => []
  | [c] =>
    match digitVal? c with
    | some d => if v1 d then [(d, [])] else []
    | Option.none => []
  | c1 :: c2 :: rest =>
    match digitVal? c1, digitVal? c2 with
    | some d1, some d2 =>
      (if v2 (10 * d1 + d2) then [(10 * d1 + d2, rest)] else []) ++
        (if v1 d1 then [(d1, c2 :: rest)] else [])
    | some d1, Option.none => if v1 d1 then [(d1, c2 :: rest)] else []
    | Option.none, _ => []

/-- The %I field: two-digit readings `1[0-2]|0[1-9]`, one-digit `[1-9]`. -/
def pFieldI : List Char → List (Nat × List Char) :=
  parseField (fun n => decide (1 ≤ n ∧ n ≤ 12)) (fun n => decide (1 ≤ n))

/-- The %H field: two-digit readings `2[0-3]|[0-1]\d`, one-digit `\d`. -/
def pFieldH : List Char → List (Nat × List Char) :=
  parseField (fun n => decide (n ≤ 23)) (fun _ => true)

/-- The %M field: two-digit readings `[0-5]\d`, one-digit `\d`. -/
def pFieldM : List Char → List (Nat × List Char) :=
  parseField (fun n => decide (n ≤ 59)) (fun _ => true)

/-- The %S field: two-digit readings `6[0-1]|[0-5]\d`, one-digit `\d`. -/
def pFieldS : List Char → List (Nat × List Char) :=
  parseField (fun n => decide (n ≤ 61)) (fun _ => true)

/-- A literal `:` in a strptime format. -/
def pColon : List Char → List (List Char)
  | c :: rest => if c = ':' then [rest] else []
  | [] => []

/-- A literal space in a strptime format, compiled to `\s+`: one or more
whitespace characters (maximal munch; the following token is never
whitespace in the formats used, so this matches the regex). -/
def pSpaces : List Char → List (List Char)
  | c :: rest => if c.isWhitespace then [rest.dropWhile Char.isWhitespace] else []
  | [] => []

/-- The %p field: `AM` or `PM`, case-insensitive; `true` means PM. -/
def pMeridiem : List Char → List (Bool × List Char)
  | c1 :: c2 :: rest =>
    if (c1 = 'a' ∨ c1 = 'A') ∧ (c2 = 'm' ∨ c2 = 'M') then [(false, rest)]
    else if (c1 = 'p' ∨ c1 = 'P') ∧ (c2 = 'm' ∨ c2 = 'M') then [(true, rest)]
    else []
  | _ => []

/-- Conversion of a %I hour plus meridiem to a 24-hour value, as in
CPython strptime: 12 AM is hour 0 and 12 PM is hour 12. -/
def hourFrom12 (h : Nat) (pm : Bool) : Nat :=
  if pm then (if h = 12 then 12 else h + 12) else (if h = 12 then 0 else h)

/-- All full matches of "%I:%M %p", as (hour24, minute). -/
def fmtIMp (cs : List Char) : List (Nat × Nat) :=
  (pFieldI cs).flatMap fun hr =>
    (pColon hr.2).flatMap fun r2 =>
      (pFieldM r2).flatMap fun mr =>
        (pSpaces mr.2).flatMap fun r4 =>
          (pMeridiem r4).flatMap fun pr =>
            if pr.2 = [] then [(hourFrom12 hr.1 pr.1, mr.1)] else []

/-- All full matches of "%I:%M%p", as (hour24, minute). -/
def fmtIMpNS (cs : List Char) : List (Nat × Nat) :=
  (pFieldI cs).flatMap fun hr =>
    (pColon hr.2).flatMap fun r2 =>
      (pFieldM r2).flatMap fun mr =>
        (pMeridiem mr.2).flatMap fun pr =>
          if pr.2 = [] then [(hourFrom12 hr.1 pr.1, mr.1)] else []

/-- All full matches of "%I:%M:%S %p", as (hour24, minute, second). -/
def fmtIMSp (cs : List Char) : List (Nat × Nat × Nat) :=
  (pFieldI cs).flatMap fun hr =>
    (pColon hr.2).flatMap fun r2 =>
      (pFieldM r2).flatMap fun mr =>
        (pColon mr.2).flatMap fun r4 =>
          (pFieldS r4).flatMap fun sr =>
            (pSpaces sr.2).flatMap fun r6 =>
              (pMeridiem r6).flatMap fun pr =>
                if pr.2 = [] then [(hourFrom12 hr.1 pr.1, mr.1, sr.1)] else []

/-- All full matches of "%H:%M", as (hour24, minute). -/
def fmtHM (cs : List Char) : List (Nat × Nat) :=
  (pFieldH cs).flatMap fun hr =>
    (pColon hr.2).flatMap fun r2 =>
      (pFieldM r2).flatMap fun mr =>
        if mr.2 = [] then [(hr.1, mr.1)] else []

/-- All full matches of "%H:%M:%S", as (hour24, minute, second). -/
def fmtHMS (cs : List Char) : List (Nat × Nat × Nat) :=
  (pFieldH cs).flatMap fun hr =>
    (pColon hr.2).flatMap fun r2 =>
      (pFieldM r2).flatMap fun mr =>
        (pColon mr.2).flatMap fun r4 =>
          (pFieldS r4).flatMap fun sr =>
            if sr.2 = [] then [(hr.1, mr.1, sr.1)] else []

/-- Result of one `datetime.strptime` attempt with a seconds-bearing format:
the regular expression takes the first match in backtracking order, and the
`datetime` constructor then rejects a leap second (60 or 61 pass the %S
regular expression but raise `ValueError`), which the caller catches, so the
whole format yields nothing. -/
def secondsGate (c : Option (Nat × Nat × Nat)) : Option (Nat × Nat) :=
  match c with
  | some hms => if hms.2.2 ≤ 59 then some (hms.1, hms.2.1) else Option.none
  | Option.none => Option.none

/-- The first of the five formats that matches the whole string, tried in
the order of the `time_formats` list in `_parse_time_to_minutes`; each
format is attempted like `datetime.strptime` (first regex match, leap
seconds rejected) and a failure falls through to the next format. -/
def strptimeFirstHM (cs : List Char) : Option (Nat × Nat) :=
  match (fmtIMp cs).head? with
  | some hm => some hm
  | Option.none =>
    match (fmtIMpNS cs).head? with
    | some hm => some hm
    | Option.none =>
      match secondsGate (fmtIMSp cs).head? with
      | some hm => some hm
      | Option.none =>
        match (fmtHM cs).head? with
        | some hm => some hm
        | Option.none => secondsGate (fmtHMS cs).head?

/-- Embedding of `_parse_time_to_minutes` (course_catalog.py lines 278-294):
`None` for a missing value, `None` for an empty/whitespace-only string,
otherwise the first matching format's `hour * 60 + minute`, and `None` when
no format matches. -/
def pyParseTimeToMinutes : Option String → Option Nat
  | Option.none => Option.none
  | some v =>
    let s := stripChars v.toList
    if s = [] then Option.none
    else (strptimeFirstHM s).map (fun hm => hm.1 * 60 + hm.2)

/-
Conflict detection: `check_time_conflicts_handler` (course_catalog.py
lines 302-398) and `_format_conflict_line` (lines 296-300).
-/

/-- One entry of a day bucket, the dict built at lines 366-373.  The Python
dict stores the raw course/section numbers and only ever formats them with
`str`, so the model stores their `str` rendering; `stop` models the key
named `end` (a Lean keyword). -/
structure Interval where
  course_id : String
  section_id : String
  start : Nat
  stop : Nat
  start_str : String
  stop_str : String
  deriving DecidableEq, Repr

/-- Embedding of `_format_conflict_line`. -/
def formatConflictLine (day : String) (a b : Interval) : String :=
  "- " ++ day ++ ": " ++ a.course_id ++ "[" ++ a.section_id ++ "] " ++
    a.start_str ++ "–" ++ a.stop_str ++ " conflicts with " ++
    b.course_id ++ "[" ++ b.section_id ++ "] " ++ b.start_str ++ "–" ++ b.stop_str

/-- Sort order used at line 378: ascending by the key `(start, end)`. -/
def intervalLE (a b : Interval) : Prop :=
  a.start < b.start ∨ (a.start = b.start ∧ a.stop ≤ b.stop)

instance : DecidableRel intervalLE := fun a b => by
  unfold intervalLE; infer_instance

instance : IsTotal Interval intervalLE :=
  ⟨fun a b => by unfold intervalLE; omega⟩

instance : IsTrans Interval intervalLE :=
  ⟨fun a b c hab hbc => by unfold intervalLE at *; omega⟩

/-- The bucket sort of line 378.  Python list.sort is a stable sort by the
key `(start, end)`; the result of any stable sort by that key is the same
list, so a stable insertion sort models it exactly. -/
def sortIntervals (l : List Interval) : List Interval :=
  List.insertionSort intervalLE l

/-- The single pass of lines 379-385: walk the sorted bucket keeping the
previous entry, and emit the pair `(prev, cur)` exactly when
`cur.start < prev.end`. -/
def sweepPairs : List Interval → List (Interval × Interval)
  | a :: b :: t => (if b.start < a.stop then [(a, b)] else []) ++ sweepPairs (b :: t)
  | _ => []

/-- Conflict pairs reported for one day bucket (lines 377-385). -/
def dayConflictPairs (l : List Interval) : List (Interval × Interval) :=
  sweepPairs (sortIntervals l)

/-- The overlap relation the specification prescribes for two intervals:
`a.start < b.end AND b.start < a.end` (strict, half-open semantics). -/
def specOverlap (a b : Interval) : Bool :=
  decide (a.start < b.stop) && decide (b.start < a.stop)

/-
Catalog model.  The remote ExploreCourses service is opaque; the handler
only reads `course_id`, `sections`, `class_id`, `schedules`, `start_time`,
`end_time` and `days` from the records it returns, so a catalog is a list
of courses carrying exactly those fields, and `get_courses_by_query`
followed by the scan at lines 328-331 amounts to looking the course up by
identifier in the returned candidates.
-/

/-- One meeting schedule of a section, as read by the handler. -/
structure Schedule where
  start_time : Option String
  end_time : Option String
  days : List String
  deriving DecidableEq, Repr

/-- One section of a course, as read by the handler. -/
structure CourseSection where
  class_id : Int
  schedules : List Schedule
  deriving DecidableEq, Repr

/-- One course record of the remote catalog, as read by the handler. -/
structure Course where
  course_id : Int
  sections : List CourseSection
  deriving DecidableEq, Repr

/-- The scan of lines 327-331: first candidate whose `course_id` equals the
requested one (`break` on the first hit). -/
def findCourse (catalog : List Course) (cid : Int) : Option Course :=
  catalog.find? (fun c => c.course_id = cid)

/-- The scan of lines 335-339: first section whose `class_id` equals the
requested `section_id` (`break` on the first hit). -/
def findSection (course : Course) (sid : Int) : Option CourseSection :=
  course.sections.find? (fun s => s.class_id = sid)

/-- Python `str(x)` on an optional time label, as in lines 351-352:
`str(None)` is the string `None`. -/
def pyStrOfOptStr : Option String → String
  | Option.none => "None"
  | some s => s

/-- Processing of one schedule (lines 348-373): parse both time labels;
an unparseable label yields one warning and no intervals; an empty day list
yields one warning and no intervals; otherwise one day-tagged interval per
entry of the day list, in order and without deduplication. -/
def processSchedule (cid sid : PyVal) (sched : Schedule) :
    List String × List (String × Interval) :=
  let start_min := pyParseTimeToMinutes sched.start_time
  let end_min := pyParseTimeToMinutes sched.end_time
  let start_str := pyStrOfOptStr sched.start_time
  let end_str := pyStrOfOptStr sched.end_time
  match start_min, end_min with
  | some s, some e =>
    if sched.days = [] then
      (["Warning: course " ++ pyStr cid ++ " section " ++ pyStr sid ++
          " schedule has no days. Skipping."], [])
    else
      ([], sched.days.map (fun day =>
        (day, { course_id := pyStr cid, section_id := pyStr sid,
                start := s, stop := e,
                start_str := start_str, stop_str := end_str })))
  | _, _ =>
    (["Warning: course " ++ pyStr cid ++ " section " ++ pyStr sid ++
        " has unparseable time window " ++ start_str ++ "–" ++ end_str ++
        ". Skipping this schedule for conflict checks."], [])

/-- Processing of one selection (lines 316-373): shape and type checks
raise, an unknown course or section raises, a section without schedules
contributes a note, and otherwise every schedule is processed in order. -/
def processItem (catalog : List Course) (item : PyVal) :
    Except String (List String × List (String × Interval)) :=
  match item with
  | PyVal.dict d =>
    let cid := pyDictGet d "course_id"
    let sid := pyDictGet d "section_id"
    if ¬ isPyNumber cid then Except.error "course_id must be a number."
    else if ¬ isPyNumber sid then Except.error "section_id must be a number."
    else
      match findCourse catalog (pyNumVal cid) with
      | Option.none => Except.error ("Invalid course_id: " ++ pyStr cid)
      | some course =>
        match findSection course (pyNumVal sid) with
        | Option.none =>
          Except.error ("Invalid section_id: " ++ pyStr sid ++
            " for course_id " ++ pyStr cid)
        | some sec =>
          if sec.schedules = [] then
            Except.ok (["Note: course " ++ pyStr cid ++ " section " ++
              pyStr sid ++ " has no schedules."], [])
          else
            Except.ok ((sec.schedules.map (processSchedule cid sid)).foldr
              (fun p acc => (p.1 ++ acc.1, p.2 ++ acc.2)) ([], []))
  | _ => Except.error "Each selection must be an object with course_id and section_id."

/-- Sequential processing of the selections list: the first selection that
raises aborts the whole call, otherwise messages and day-tagged intervals
accumulate in order. -/
def collectItems (catalog : List Course) : List PyVal →
    Except String (List String × List (String × Interval))
  | [] => Except.ok ([], [])
  | item :: rest =>
    match processItem catalog item with
    | Except.error e => Except.error e
    | Except.ok r =>
      match collectItems catalog rest with
      | Except.error e => Except.error e
      | Except.ok rs => Except.ok (r.1 ++ rs.1, r.2 ++ rs.2)

/-- The `day_to_intervals` dict of lines 313 and 364-373: an
insertion-ordered mapping from day to the bucket of intervals appended for
that day. -/
def addToBuckets : List (String × List Interval) → String × Interval →
    List (String × List Interval)
  | [], di => [(di.1, [di.2])]
  | b :: rest, di =>
    if b.1 = di.1 then (b.1, b.2 ++ [di.2]) :: rest
    else b :: addToBuckets rest di

/-- Bucket all day-tagged intervals, preserving both dict insertion order
and per-bucket append order. -/
def buildBuckets (l : List (String × Interval)) : List (String × List Interval) :=
  l.foldl addToBuckets []

/-- The conflict lines emitted by lines 375-385, across all day buckets in
dict iteration order. -/
def allConflictLines (bs : List (String × List Interval)) : List String :=
  bs.flatMap (fun b => (dayConflictPairs b.2).map (fun p => formatConflictLine b.1 p.1 p.2))

/-- A selection the handler rejects: not a dict, a non-numeric course or
section identifier, an identifier that resolves to no catalog course, or a
section identifier matching no section of the resolved course. -/
def selectionInvalid (catalog : List Course) (item : PyVal) : Bool :=
  match item with
  | PyVal.dict d =>
    let cid := pyDictGet d "course_id"
    let sid := pyDictGet d "section_id"
    if ¬ isPyNumber cid then true
    else if ¬ isPyNumber sid then true
    else
      match findCourse catalog (pyNumVal cid) with
      | Option.none => true
      | some course =>
        match findSection course (pyNumVal sid) with
        | Option.none => true
        | some _ => false
  | _ => true

/-- Embedding of `check_time_conflicts_handler` up to output rendering:
validate the `selections` argument, process every selection, bucket the
intervals by day, and report the conflict lines of every bucket.  The error
of the `Except` is the message of the exception the Python handler raises;
an erroring call returns no content at all. -/
def checkTimeConflictsOutcome (catalog : List Course)
    (arguments : List (String × PyVal)) : Except String (List String × List String) :=
  match pyDictGet arguments "selections" with
  | PyVal.list items =>
    if items.isEmpty then
      Except.error "\x27selections\x27 must be a non-empty array of \x7bcourse_id, section_id\x7d."
    else
      match collectItems catalog items with
      | Except.error e => Except.error e
      | Except.ok r => Except.ok (r.1, allConflictLines (buildBuckets r.2))
  | _ => Except.error "\x27selections\x27 must be a non-empty array of \x7bcourse_id, section_id\x7d."

/-- Rendering of lines 387-398: header, one block of notes when messages
exist, then either the conflict lines or the no-conflict line. -/
def renderOutput (msgs conflicts : List String) : String :=
  let out1 := ["Time Conflict Check"]
  let out2 := if msgs = [] then out1 else out1 ++ ["\nNotes:"] ++ msgs.map (fun m => "- " ++ m)
  let out3 := if conflicts = [] then out2 ++ ["\nNo conflicts detected."]
              else out2 ++ ["\nConflicts:"] ++ conflicts
  String.intercalate "\n" out3

/-- The full handler: the rendered text of a successful call, or the raised
exception message. -/
def checkTimeConflictsHandler (catalog : List Course)
    (arguments : List (String × PyVal)) : Except String String :=
  (checkTimeConflictsOutcome catalog arguments).map (fun r => renderOutput r.1 r.2)

/-
Auth gate: `require_bearer_token` (auth.py lines 5-45).
-/

/-- The decision the wrapped ASGI app takes on one inbound call: forward to
the inner application, or answer with one of the three rejections. -/
inductive AuthDecision where
  | forwarded : AuthDecision
  | serverMisconfigured : AuthDecision
  | missingCredential : AuthDecision
  | invalidCredential : AuthDecision
  deriving DecidableEq, Repr

/-- The parts of the ASGI scope the gate reads: the scope type, the request
path, and the decoded header list. -/
structure HttpScope where
  type : String
  path : String
  headers : List (String × String)
  deriving DecidableEq, Repr

/-- Embedding of `require_bearer_token`: non-HTTP scopes and paths outside
the protected prefix pass through; an unset or empty configured token is a
500; the configured header is looked up case-insensitively (first match
wins); a missing or empty value, or one whose lowercasing does not start
with the scheme prefix, is a 401 advertising the scheme; a remainder after
the first space that differs from the configured token is a 401; otherwise
the call is forwarded unchanged. -/
def requireBearerToken (headerName expectedToken : String) (scope : HttpScope) :
    AuthDecision :=
  if scope.type ≠ "http" then AuthDecision.forwarded
  else if ¬ strStartsWith scope.path "/mcp" then AuthDecision.forwarded
  else if expectedToken = "" then AuthDecision.serverMisconfigured
  else
    match scope.headers.find? (fun kv => lowerStr kv.1 = lowerStr headerName) with
    | Option.none => AuthDecision.missingCredential
    | some kv =>
      if kv.2 = "" ∨ ¬ strStartsWith (lowerStr kv.2) "bearer " then
        AuthDecision.missingCredential
      else if afterFirstSpace kv.2 ≠ expectedToken then AuthDecision.invalidCredential
      else AuthDecision.forwarded

/-- The decision procedure exactly as the specification words it, for calls
on the protected prefix: no configured secret means `ServerMisconfigured`
regardless of headers; an absent header, or one not starting with the
case-insensitive scheme prefix, means `MissingCredential`; a supplied token
not byte-for-byte equal to the secret means `InvalidCredential`; otherwise
the call is forwarded unchanged. -/
def authGateSpecDecision (headerName expectedToken : String) (scope : HttpScope) :
    AuthDecision :=
  if expectedToken = "" then AuthDecision.serverMisconfigured
  else
    match scope.headers.find? (fun kv => lowerStr kv.1 = lowerStr headerName) with
    | Option.none => AuthDecision.missingCredential
    | some kv =>
      if ¬ strStartsWith (lowerStr kv.2) "bearer " then AuthDecision.missingCredential
      else if afterFirstSpace kv.2 ≠ expectedToken then AuthDecision.invalidCredential
      else AuthDecision.forwarded

/-
Auto-discovery: `register_all_tools` and `_call_register_if_present`
(tools/__init__.py lines 13-98).  A handler-group module is abstracted to
the one attribute discovery reads: its optional `register_all` callable,
whose invocation either registers a list of command names or raises.
An import attempt either produces a module or raises; steps 2 and 3
additionally distinguish `ModuleNotFoundError` (passed silently) from other
exceptions (logged) — both continue with the next convention.
-/

/-- A loaded handler-group module: `registerAll = none` models a module
without a callable `register_all`; `some (Except.error ())` an entry point
that raises when invoked; `some (Except.ok cmds)` an entry point that
registers the commands `cmds`. -/
structure ToolModule where
  registerAll : Option (Except Unit (List String))
  deriving Repr

/-- Outcome of one `importlib.import_module` attempt in steps 2 and 3. -/
inductive ImportOutcome where
  | notFound : ImportOutcome
  | raised : ImportOutcome
  | loaded (m : ToolModule) : ImportOutcome
  deriving Repr

/-- One subdirectory of `tools/` as discovery sees it: the package import
of step 1 (any exception is caught there, so two outcomes suffice), the
same-name module of step 2, the `tool.py` module of step 3, and the
path-based candidates of step 4 (`none` models a file that does not exist,
`Except.error` a load/exec failure). -/
structure ToolGroup where
  name : String
  pkg : Except Unit ToolModule
  sameName : ImportOutcome
  toolMod : ImportOutcome
  candidates : List (Option (Except Unit ToolModule))
  deriving Repr

/-- Step 4 (lines 73-95): walk the path candidates; a missing file, a load
failure, a raising entry point or an absent entry point all continue with
the next candidate; the first candidate whose entry point registers breaks
the loop. -/
def tryCandidates : List (Option (Except Unit ToolModule)) → Option (List String)
  | [] => Option.none
  | Option.none :: rest => tryCandidates rest
  | some (Except.error _) :: rest => tryCandidates rest
  | some (Except.ok m) :: rest =>
    match m.registerAll with
    | some (Except.ok cmds) => some cmds
    | some (Except.error _) => tryCandidates rest
    | Option.none => tryCandidates rest

/-- Steps 2-4 for one group.  In steps 2 and 3 the `try` block covers both
the import and the invocation of `register_all`, so a raising entry point
is caught and falls through; a group where no convention yields an entry
point registers nothing and is not a failure (line 97-98). -/
def processGroupFrom2 (g : ToolGroup) : Except (List String) (List String) :=
  match g.sameName with
  | ImportOutcome.loaded m =>
    match m.registerAll with
    | some (Except.ok cmds) => Except.ok cmds
    | _ => processGroupFrom3 g
  | _ => processGroupFrom3 g
where
  /-- Step 3, falling through to step 4. -/
  processGroupFrom3 (g : ToolGroup) : Except (List String) (List String) :=
    match g.toolMod with
    | ImportOutcome.loaded m =>
      match m.registerAll with
      | some (Except.ok cmds) => Except.ok cmds
      | _ =>
        match tryCandidates g.candidates with
        | some cmds => Except.ok cmds
        | Option.none => Except.ok []
    | _ =>
      match tryCandidates g.candidates with
      | some cmds => Except.ok cmds
      | Option.none => Except.ok []

/-- One group (lines 44-98).  Step 1 wraps only the import in its `try`:
when the package imports and exposes a raising `register_all`, the
invocation at line 50 happens outside any handler and the exception
propagates out of `register_all_tools` (modelled as `Except.error`, whose
payload is what the raising invocation registered, namely nothing). -/
def processGroup (g : ToolGroup) : Except (List String) (List String) :=
  match g.pkg with
  | Except.ok m =>
    match m.registerAll with
    | some (Except.ok cmds) => Except.ok cmds
    | some (Except.error _) => Except.error []
    | Option.none => processGroupFrom2 g
  | Except.error _ => processGroupFrom2 g

/-- Embedding of `register_all_tools` over the enumerated groups: the
commands registered, and whether the walk completed (false when an
uncaught exception aborted it, leaving later groups unprocessed). -/
def registerAllTools : List ToolGroup → List String × Bool
  | [] => ([], true)
  | g :: rest =>
    match processGroup g with
    | Except.ok cmds =>
      let r := registerAllTools rest
      (cmds ++ r.1, r.2)
    | Except.error cmds => (cmds, false)

/-
Per-handler argument validation (claim C8): `list_schools_handler`
(course_catalog.py lines 51-74), `get_alerts_handler` (weather.py lines
136-146), `start` (notification.py lines 32-53) and the `terms` defaulting
of `get_course_handler` (course_catalog.py line 173).
-/

/-- One school record as `list_schools_handler` reads it. -/
structure School where
  name : String
  departments : List String
  deriving DecidableEq, Repr

/-- Embedding of `list_schools_handler`: a missing
`include_department_count` raises `ValueError` naming the field, a
non-boolean raises `TypeError` naming the expected and actual kinds, and
otherwise the school listing is rendered. -/
def listSchoolsHandler (schools : List School) (arguments : List (String × PyVal)) :
    Except String String :=
  match pyDictGet arguments "include_department_count" with
  | PyVal.none =>
    Except.error "Missing required argument \x27include_department_count\x27 (boolean)."
  | PyVal.bool b =>
    Except.ok (schools.foldl (fun out school =>
      out ++ "\n - " ++ school.name ++
        (if b then
          " (" ++ toString school.departments.length ++ " department" ++
            (if 1 < school.departments.length then "s" else "") ++ ")"
         else "")) "Schools:")
  | v =>
    Except.error ("Invalid type for \x27include_department_count\x27: expected boolean, got "
      ++ pyTypeName v)

/-- Embedding of `get_alerts_handler`, with the outbound alert fetch
abstracted as `alertsFor`: a non-string `state`, or one that is not exactly
two characters after stripping, is answered with an explanatory text block
in a normal (success-shaped) result, not with a raised error. -/
def getAlertsHandler (alertsFor : String → List String)
    (arguments : List (String × PyVal)) : Except String (List String) :=
  match pyDictGet arguments "state" with
  | PyVal.str s =>
    let t := stripChars s.toList
    if t.length ≠ 2 then
      Except.ok ["Invalid state code. Provide a two-letter US state code."]
    else Except.ok (alertsFor (String.mk (upperChars t)))
  | _ => Except.ok ["Invalid state code. Provide a two-letter US state code."]

/-- Embedding of the notification `start` handler: every declared required
field is read with a silent default (`1.0`, `5`, `"unknown"`), `count` is
consumed by `range` (which requires an integer and otherwise raises), one
log notification is emitted per iteration, and a summary line is returned.
The `anyio.sleep` between notifications has no observable effect here. -/
def notificationStart (arguments : List (String × PyVal)) :
    Except String (List String × String) :=
  let interval := pyDictGetD arguments "interval" (PyVal.float 1)
  let count := pyDictGetD arguments "count" (PyVal.int 5)
  let caller := pyDictGetD arguments "caller" (PyVal.str "unknown")
  match count with
  | PyVal.int n =>
    let iterations := (if n ≤ 0 then 0 else n).toNat
    Except.ok
      ((List.range iterations).map (fun i =>
        "Notification " ++ toString (i + 1) ++ "/" ++ pyStr count ++
          " from caller: " ++ pyStr caller),
       "Sent " ++ pyStr count ++ " notifications with " ++ pyStr interval ++
         "s interval for caller: " ++ pyStr caller)
  | PyVal.bool b =>
    let iterations := if b then 1 else 0
    Except.ok
      ((List.range iterations).map (fun i =>
        "Notification " ++ toString (i + 1) ++ "/" ++ pyStr count ++
          " from caller: " ++ pyStr caller),
       "Sent " ++ pyStr count ++ " notifications with " ++ pyStr interval ++
         "s interval for caller: " ++ pyStr caller)
  | _ => Except.error "range() argument must be an integer"

/-- The `terms` value `get_course_handler` actually queries with (line
173): the supplied value when it is truthy, else the default
`["Autumn"]` — substituted silently even though `terms` is declared
required in the tool schema. -/
def getCourseTermsUsed (arguments : List (String × PyVal)) : PyVal :=
  match pyDictGet arguments "terms" with
  | PyVal.none => PyVal.list [PyVal.str "Autumn"]
  | PyVal.list [] => PyVal.list [PyVal.str "Autumn"]
  | PyVal.str "" => PyVal.list [PyVal.str "Autumn"]
  | PyVal.bool false => PyVal.list [PyVal.str "Autumn"]
  | PyVal.int 0 => PyVal.list [PyVal.str "Autumn"]
  | PyVal.float 0 => PyVal.list [PyVal.str "Autumn"]
  | PyVal.dict [] => PyVal.list [PyVal.str "Autumn"]
  | v => v

/-
Registry (claim C9).  Modelled from the spec: the Registry implementation
(`tools/registry.py`, imported by every handler group and by app.py) is not
part of the sources; per the specification it is a mapping from command
name to (descriptor, handler) entry, `register` overwrites silently when
the name already exists (last writer wins), `lookup` finds the entry by
name, and `list()` returns the descriptors in registration order.
-/

/-- Modelled from the spec: one Registry entry, a command name together
with an abstract identity standing for the (descriptor, handler) pair. -/
structure RegistryEntry where
  name : String
  payload : Nat
  deriving DecidableEq, Repr

/-- Modelled from the spec: `register(descriptor, handler)` — when the name
exists the entry is overwritten in place (last writer wins, order kept),
otherwise the entry is appended in registration order. -/
def registryRegister (reg : List RegistryEntry) (e : RegistryEntry) :
    List RegistryEntry :=
  if reg.any (fun x => x.name = e.name) then
    reg.map (fun x => if x.name = e.name then e else x)
  else reg ++ [e]

/-- Modelled from the spec: `lookup(name)`. -/
def registryLookup (reg : List RegistryEntry) (n : String) : Option RegistryEntry :=
  reg.find? (fun x => x.name = n)

/-- The names `list()` advertises, in registration order. -/
def registryNames (reg : List RegistryEntry) : List String :=
  reg.map (fun x => x.name)

/-
Concrete instances used by the individual claim theorems.
-/

/-- A `{course_id, section_id}` selection object. -/
def selectionPair (c s : Int) : PyVal :=
  PyVal.dict [("course_id", PyVal.int c), ("section_id", PyVal.int s)]

/-- A course section with a single meeting schedule. -/
def mkSection (sid : Int) (st en : String) (days : List String) : CourseSection :=
  ⟨sid, [⟨some st, some en, days⟩]⟩

/-- Scenario B of the specification: course 101 with three sections meeting
Monday 08:00-12:00, 08:30-09:00 and 11:00-13:00. -/
def scenarioBCatalog : List Course :=
  [⟨101, [mkSection 1 "08:00" "12:00" ["Mon"],
          mkSection 2 "08:30" "09:00" ["Mon"],
          mkSection 3 "11:00" "13:00" ["Mon"]]⟩]

/-- Arguments selecting all three scenario B sections. -/
def scenarioBArguments : List (String × PyVal) :=
  [("selections", PyVal.list [selectionPair 101 1, selectionPair 101 2, selectionPair 101 3])]

/-- The day-bucket interval of scenario B section 1 (08:00-12:00). -/
def scenarioBInterval1 : Interval :=
  ⟨"101", "1", 480, 720, "08:00", "12:00"⟩

/-- The day-bucket interval of scenario B section 3 (11:00-13:00). -/
def scenarioBInterval3 : Interval :=
  ⟨"101", "3", 660, 780, "11:00", "13:00"⟩

/-- A catalog with one course and one Tuesday 10:00-11:00 section, for the
duplicate-selection scenario. -/
def duplicateSelCatalog : List Course :=
  [⟨7, [mkSection 9 "10:00" "11:00" ["Tue"]]⟩]

/-- A catalog whose only schedule lists Wednesday twice. -/
def duplicateDayCatalog : List Course :=
  [⟨7, [⟨9, [⟨some "10:00", some "11:00", ["Wed", "Wed"]⟩]⟩]⟩]

/-- Scenario C of the specification: section 1 has the unparseable start
label TBD, section 2 a normal Monday slot. -/
def scenarioCCatalog : List Course :=
  [⟨5, [⟨1, [⟨some "TBD", some "10:00", ["Mon"]⟩]⟩,
        mkSection 2 "09:00" "10:00" ["Mon"]]⟩]

/-- A catalog with an overnight section (08:20 to 01:40 next day, parsed as
start minute 500 and end minute 100) next to a section starting exactly at
its end label, 01:40-10:00. -/
def overnightCatalog : List Course :=
  [⟨3, [mkSection 1 "08:20" "01:40" ["Mon"],
        mkSection 2 "01:40" "10:00" ["Mon"]]⟩]

/-- A handler group whose package import succeeds and whose package-level
entry point registers one command. -/
def groupWellFormed : ToolGroup :=
  ⟨"weather", Except.ok ⟨some (Except.ok ["good-cmd"])⟩,
    ImportOutcome.notFound, ImportOutcome.notFound, []⟩

/-- A handler group whose package import succeeds but whose package-level
entry point raises when invoked. -/
def groupEntryRaisesOnInvoke : ToolGroup :=
  ⟨"broken", Except.ok ⟨some (Except.error ())⟩,
    ImportOutcome.notFound, ImportOutcome.notFound, []⟩

/-- A handler group that raises on import at every convention. -/
def groupRaisesOnImport : ToolGroup :=
  ⟨"unimportable", Except.error (), ImportOutcome.raised, ImportOutcome.raised, []⟩

/-- A handler group in which no convention yields a register_all entry
point. -/
def groupWithoutEntry : ToolGroup :=
  ⟨"inert", Except.ok ⟨Option.none⟩, ImportOutcome.notFound,
    ImportOutcome.notFound, [Option.none]⟩

/-
Helper lemmas.
-/

theorem listHeadMem {α : Type _} {l : List α} {a : α} (h : l.head? = some a) : a ∈ l := by
  cases l with
  | nil => simp at h
  | cons x t =>
    rw [List.head?_cons] at h
    injection h with h
    rw [h]
    exact List.mem_cons_self _ _

theorem digitVal?_lt {c : Char} {d : Nat} (h : digitVal? c = some d) : d < 10 := by
  unfold digitVal? at h
  split at h
  · injection h with h
    omega
  · exact absurd h (by simp)

theorem parseField_mem {v2 v1 : Nat → Bool} {cs : List Char} {n : Nat} {r : List Char}
    (h : (n, r) ∈ parseField v2 v1 cs) : v2 n = true ∨ (v1 n = true ∧ n < 10) := by
  match cs with
  | [] => simp [parseField] at h
  | [c] =>
    simp only [parseField] at h
    cases hd : digitVal? c with
    | none => simp only [hd] at h; simp at h
    | some d =>
      simp only [hd] at h
      split at h
      · simp at h
        right
        refine ⟨?_, ?_⟩
        · rw [h.1]; assumption
        · rw [h.1]; exact digitVal?_lt hd
      · simp at h
  | c1 :: c2 :: rest =>
    simp only [parseField] at h
    cases hd1 : digitVal? c1 with
    | none => simp only [hd1] at h; simp at h
    | some d1 =>
      simp only [hd1] at h
      cases hd2 : digitVal? c2 with
      | none =>
        simp only [hd2] at h
        split at h
        · simp at h
          right
          refine ⟨?_, ?_⟩
          · rw [h.1]; assumption
          · rw [h.1]; exact digitVal?_lt hd1
        · simp at h
      | some d2 =>
        simp only [hd2] at h
        rw [List.mem_append] at h
        rcases h with h | h
        · split at h
          · simp at h
            left
            rw [h.1]
            assumption
          · simp at h
        · split at h
          · simp at h
            right
            refine ⟨?_, ?_⟩
            · rw [h.1]; assumption
            · rw [h.1]; exact digitVal?_lt hd1
          · simp at h

theorem pFieldI_le {cs : List Char} {n : Nat} {r : List Char}
    (h : (n, r) ∈ pFieldI cs) : 1 ≤ n ∧ n ≤ 12 := by
  rcases parseField_mem h with h | ⟨h, hlt⟩
  · simpa using of_decide_eq_true h
  · have := of_decide_eq_true h
    omega

theorem pFieldH_le {cs : List Char} {n : Nat} {r : List Char}
    (h : (n, r) ∈ pFieldH cs) : n ≤ 23 := by
  rcases parseField_mem h with h | ⟨_, hlt⟩
  · simpa using of_decide_eq_true h
  · omega

theorem pFieldM_le {cs : List Char} {n : Nat} {r : List Char}
    (h : (n, r) ∈ pFieldM cs) : n ≤ 59 := by
  rcases parseField_mem h with h | ⟨_, hlt⟩
  · simpa using of_decide_eq_true h
  · omega

theorem hourFrom12_lt {h : Nat} (hh : h ≤ 12) (pm : Bool) : hourFrom12 h pm < 24 := by
  unfold hourFrom12
  split <;> split <;> omega

theorem fmtIMp_bounds {cs : List Char} {h m : Nat}
    (hm : (h, m) ∈ fmtIMp cs) : h < 24 ∧ m < 60 := by
  simp only [fmtIMp, List.mem_flatMap] at hm
  obtain ⟨hr, hhr, _, _, mr, hmr, _, _, pr, _, hfin⟩ := hm
  split at hfin <;> simp at hfin
  obtain ⟨hh, hm'⟩ := hfin
  constructor
  · rw [hh]
    exact hourFrom12_lt (pFieldI_le hhr).2 pr.1
  · have := pFieldM_le hmr
    omega

theorem fmtIMpNS_bounds {cs : List Char} {h m : Nat}
    (hm : (h, m) ∈ fmtIMpNS cs) : h < 24 ∧ m < 60 := by
  simp only [fmtIMpNS, List.mem_flatMap] at hm
  obtain ⟨hr, hhr, _, _, mr, hmr, pr, _, hfin⟩ := hm
  split at hfin <;> simp at hfin
  obtain ⟨hh, hm'⟩ := hfin
  constructor
  · rw [hh]
    exact hourFrom12_lt (pFieldI_le hhr).2 pr.1
  · have := pFieldM_le hmr
    omega

theorem fmtIMSp_bounds {cs : List Char} {h m s : Nat}
    (hm : (h, m, s) ∈ fmtIMSp cs) : h < 24 ∧ m < 60 := by
  simp only [fmtIMSp, List.mem_flatMap] at hm
  obtain ⟨hr, hhr, _, _, mr, hmr, _, _, _, _, _, _, pr, _, hfin⟩ := hm
  split at hfin <;> simp at hfin
  obtain ⟨hh, hm', _⟩ := hfin
  constructor
  · rw [hh]
    exact hourFrom12_lt (pFieldI_le hhr).2 pr.1
  · have := pFieldM_le hmr
    omega

theorem fmtHM_bounds {cs : List Char} {h m : Nat}
    (hm : (h, m) ∈ fmtHM cs) : h < 24 ∧ m < 60 := by
  simp only [fmtHM, List.mem_flatMap] at hm
  obtain ⟨hr, hhr, _, _, mr, hmr, hfin⟩ := hm
  split at hfin <;> simp at hfin
  obtain ⟨hh, hm'⟩ := hfin
  have h1 := pFieldH_le hhr
  have h2 := pFieldM_le hmr
  omega

theorem fmtHMS_bounds {cs : List Char} {h m s : Nat}
    (hm : (h, m, s) ∈ fmtHMS cs) : h < 24 ∧ m < 60 := by
  simp only [fmtHMS, List.mem_flatMap] at hm
  obtain ⟨hr, hhr, _, _, mr, hmr, _, _, _, _, hfin⟩ := hm
  split at hfin <;> simp at hfin
  obtain ⟨hh, hm', _⟩ := hfin
  have h1 := pFieldH_le hhr
  have h2 := pFieldM_le hmr
  omega

theorem secondsGate_eq {c : Option (Nat × Nat × Nat)} {h m : Nat}
    (hg : secondsGate c = some (h, m)) : ∃ s, c = some (h, m, s) := by
  cases c with
  | none => simp [secondsGate] at hg
  | some hms =>
    obtain ⟨h1, h2, h3⟩ := hms
    simp only [secondsGate] at hg
    split at hg
    · injection hg with hg
      rw [Prod.mk.injEq] at hg
      refine ⟨h3, ?_⟩
      rw [hg.1, hg.2]
    · exact absurd hg (by simp)

theorem strptimeFirstHM_bounds {cs : List Char} {h m : Nat}
    (hp : strptimeFirstHM cs = some (h, m)) : h < 24 ∧ m < 60 := by
  unfold strptimeFirstHM at hp
  split at hp
  · rename_i heq
    injection hp with hp
    rw [hp] at heq
    exact fmtIMp_bounds (listHeadMem heq)
  · split at hp
    · rename_i heq
      injection hp with hp
      rw [hp] at heq
      exact fmtIMpNS_bounds (listHeadMem heq)
    · split at hp
      · rename_i heq
        injection hp with hp
        rw [hp] at heq
        obtain ⟨s, hc⟩ := secondsGate_eq heq
        exact fmtIMSp_bounds (listHeadMem hc)
      · split at hp
        · rename_i heq
          injection hp with hp
          rw [hp] at heq
          exact fmtHM_bounds (listHeadMem heq)
        · obtain ⟨s, hc⟩ := secondsGate_eq hp
          exact fmtHMS_bounds (listHeadMem hc)

/-- C7: `_parse_time_to_minutes` returns `None` for a missing value and for
an empty or whitespace-only label; for a label matching one of the five
recognized formats it returns the first match's `hour * 60 + minute`, whose
hour is below 24 and minute below 60, so every returned value lies in
`[0, 1440)` (it is a `Nat`, hence nonnegative); it never raises (the
embedding is a total function into `Option`).  The closed equations
exercise each recognized format, a rejected label, whitespace-only input,
an out-of-range hour, and a leap-second label that the regular expression
accepts but the `datetime` constructor rejects. -/
theorem parse_time_to_minutes_spec :
    pyParseTimeToMinutes Option.none = Option.none
    ∧ (∀ s : String, stripChars s.toList = [] → pyParseTimeToMinutes (some s) = Option.none)
    ∧ (∀ s : String, pyParseTimeToMinutes (some s) =
        (if stripChars s.toList = [] then Option.none
         else (strptimeFirstHM (stripChars s.toList)).map (fun hm => hm.1 * 60 + hm.2)))
    ∧ (∀ (cs : List Char) (h m : Nat), strptimeFirstHM cs = some (h, m) → h < 24 ∧ m < 60)
    ∧ (∀ (s : String) (n : Nat), pyParseTimeToMinutes (some s) = some n → n < 1440)
    ∧ pyParseTimeToMinutes (some "9:30 AM") = some 570
    ∧ pyParseTimeToMinutes (some "12:00 AM") = some 0
    ∧ pyParseTimeToMinutes (some "12:30PM") = some 750
    ∧ pyParseTimeToMinutes (some "2:05:10 PM") = some 845
    ∧ pyParseTimeToMinutes (some "09:30") = some 570
    ∧ pyParseTimeToMinutes (some "13:45:59") = some 825
    ∧ pyParseTimeToMinutes (some "23:59") = some 1439
    ∧ pyParseTimeToMinutes (some "TBD") = Option.none
    ∧ pyParseTimeToMinutes (some "   ") = Option.none
    ∧ pyParseTimeToMinutes (some "24:00") = Option.none
    ∧ pyParseTimeToMinutes (some "1:02:60 pm") = Option.none := by
  refine ⟨rfl, ?_, fun s => rfl, ?_, ?_, by decide, by decide, by decide, by decide,
    by decide, by decide, by decide, by decide, by decide, by decide, by decide⟩
  · intro s h
    have h' : stripChars s.data = [] := h
    simp [pyParseTimeToMinutes, h']
  · intro cs h m hp
    exact strptimeFirstHM_bounds hp
  · intro s n h
    simp only [pyParseTimeToMinutes] at h
    split at h
    · exact absurd h (by simp)
    · cases hm : strptimeFirstHM (stripChars s.toList) with
      | none => rw [hm] at h; simp at h
      | some hm' =>
        obtain ⟨h', m'⟩ := hm'
        rw [hm] at h
        simp at h
        have := strptimeFirstHM_bounds hm
        omega

/-- Witness for C7: the bound conjuncts applied at the concrete label
`9:30`, which parses to hour 9, minute 30, value 570. -/
theorem parse_time_to_minutes_spec_witness :
    ((9 : Nat) < 24 ∧ (30 : Nat) < 60) ∧ (570 : Nat) < 1440 :=
  ⟨parse_time_to_minutes_spec.2.2.2.1 "9:30".toList 9 30 (by decide),
   parse_time_to_minutes_spec.2.2.2.2.1 "9:30" 570 (by decide)⟩

/-- C2: for every call on the protected prefix the auth gate decides in the
specified fixed order — no configured secret means `ServerMisconfigured`
regardless of headers, then an absent header or one without the
case-insensitive scheme prefix means `MissingCredential` (advertising the
scheme), then a token not byte-for-byte equal to the secret means
`InvalidCredential`, and otherwise the call is forwarded unchanged.  The
first conjunct is the refinement of the embedded gate against the decision
procedure written from the specification text; the closed conjuncts are the
specification's concrete vectors for secret `abc`, the no-secret case, and
an unprotected path passing through. -/
theorem auth_gate_decision_spec :
    (∀ (headerName expectedToken : String) (scope : HttpScope),
        scope.type = "http" → strStartsWith scope.path "/mcp" = true →
        requireBearerToken headerName expectedToken scope =
          authGateSpecDecision headerName expectedToken scope)
    ∧ requireBearerToken "Authorization" "abc"
        ⟨"http", "/mcp", [("Authorization", "Bearer abc")]⟩ = AuthDecision.forwarded
    ∧ requireBearerToken "Authorization" "abc"
        ⟨"http", "/mcp", [("Authorization", "Bearer abcd")]⟩ = AuthDecision.invalidCredential
    ∧ requireBearerToken "Authorization" "abc"
        ⟨"http", "/mcp", []⟩ = AuthDecision.missingCredential
    ∧ requireBearerToken "Authorization" ""
        ⟨"http", "/mcp", [("Authorization", "Bearer abc")]⟩ = AuthDecision.serverMisconfigured
    ∧ requireBearerToken "Authorization" "abc"
        ⟨"http", "/healthz", []⟩ = AuthDecision.forwarded := by
  refine ⟨?_, by decide, by decide, by decide, by decide, by decide⟩
  intro hn tok scope h1 h2
  unfold requireBearerToken authGateSpecDecision
  rw [if_neg (by simp [h1]), if_neg (by simp [h2])]
  split
  · rfl
  · cases hfind : scope.headers.find? (fun kv => lowerStr kv.1 = lowerStr hn) with
    | none => rfl
    | some kv =>
      by_cases hv : kv.2 = ""
      · have hsw : strStartsWith (lowerStr "") "bearer " = false := by decide
        simp [hv, hsw]
      · simp [hv]

/-- Witness for C2: the refinement conjunct applied at a concrete protected
call with a case-insensitively matched header name and scheme keyword. -/
theorem auth_gate_decision_spec_witness :
    requireBearerToken "X-Api-Key" "abc"
        ⟨"http", "/mcp/server", [("x-api-key", "BEARER abc")]⟩ =
      authGateSpecDecision "X-Api-Key" "abc"
        ⟨"http", "/mcp/server", [("x-api-key", "BEARER abc")]⟩ :=
  auth_gate_decision_spec.1 "X-Api-Key" "abc"
    ⟨"http", "/mcp/server", [("x-api-key", "BEARER abc")]⟩ rfl (by decide)

theorem sweepPairs_mem {p c : Interval} : ∀ {l : List Interval},
    l.Sorted intervalLE → (p, c) ∈ sweepPairs l → intervalLE p c ∧ c.start < p.stop := by
  intro l
  induction l with
  | nil => intro _ hm; simp [sweepPairs] at hm
  | cons a t ih =>
    intro hs hm
    cases t with
    | nil => simp [sweepPairs] at hm
    | cons b t' =>
      rw [List.sorted_cons] at hs
      simp only [sweepPairs] at hm
      rw [List.mem_append] at hm
      rcases hm with hm | hm
      · split at hm
        · simp at hm
          rw [hm.1, hm.2]
          exact ⟨hs.1 b (List.mem_cons_self _ _), by assumption⟩
        · simp at hm
      · exact ih hs.2 hm

/-- C5 (amended): two well-formed parsed intervals (`start < end`, as the
claim's 09:00-10:00 style examples are) on the same day whose endpoints
merely touch are never reported as a conflict, in either order of the pair:
every reported pair strictly overlaps, because the sweep emits
`(prev, cur)` only when `cur.start < prev.end` and the sort guarantees
`prev.start ≤ cur.start`, which for well-formed intervals yields exactly
the half-open, end-exclusive overlap test `a.start < b.end AND b.start <
a.end`.  The well-formedness restriction is forced by the counterexample:
the code's test is one-sided, and an inverted (overnight) interval touching
another is reported. -/
theorem touching_intervals_not_conflicting :
    ∀ (l : List Interval) (a b : Interval),
      (∀ i ∈ l, i.start < i.stop) → a ∈ l → b ∈ l → a.stop = b.start →
      (a, b) ∉ dayConflictPairs l ∧ (b, a) ∉ dayConflictPairs l := by
  intro l a b hwf ha hb htouch
  have hsorted : (sortIntervals l).Sorted intervalLE :=
    List.sorted_insertionSort intervalLE l
  have hwa : a.start < a.stop := hwf a ha
  constructor
  · intro hmem
    unfold dayConflictPairs at hmem
    have h2 := sweepPairs_mem hsorted hmem
    omega
  · intro hmem
    unfold dayConflictPairs at hmem
    have h2 := sweepPairs_mem hsorted hmem
    obtain ⟨hle, hlt⟩ := h2
    unfold intervalLE at hle
    rcases hle with hle | ⟨hle, _⟩ <;> omega

/-- Witness for C5: the disjoint touching intervals 09:00-10:00 and
10:00-11:00 of scenario D are reported in neither order. -/
theorem touching_intervals_not_conflicting_witness :
    (Interval.mk "1" "1" 540 600 "09:00" "10:00",
     Interval.mk "2" "2" 600 660 "10:00" "11:00") ∉
        dayConflictPairs [Interval.mk "1" "1" 540 600 "09:00" "10:00",
                          Interval.mk "2" "2" 600 660 "10:00" "11:00"]
    ∧ (Interval.mk "2" "2" 600 660 "10:00" "11:00",
       Interval.mk "1" "1" 540 600 "09:00" "10:00") ∉
        dayConflictPairs [Interval.mk "1" "1" 540 600 "09:00" "10:00",
                          Interval.mk "2" "2" 600 660 "10:00" "11:00"] :=
  touching_intervals_not_conflicting
    [Interval.mk "1" "1" 540 600 "09:00" "10:00",
     Interval.mk "2" "2" 600 660 "10:00" "11:00"]
    (Interval.mk "1" "1" 540 600 "09:00" "10:00")
    (Interval.mk "2" "2" 600 660 "10:00" "11:00")
    (by decide) (by decide) (by decide) rfl

/-- C5 (counterexample): the claim as stated quantifies over every pair of
parsed meeting intervals, but the sweep checks only `cur.start < prev.end`,
not the symmetric strict test.  An overnight schedule 08:20-01:40 parses to
the inverted interval (500, 100); its end minute equals the start minute of
01:40-10:00 (the pair touches), yet the handler reports the pair as a
conflict, both at the bucket level and through a full call. -/
theorem touching_intervals_counterexample :
    (Interval.mk "3" "1" 500 100 "08:20" "01:40").stop =
      (Interval.mk "3" "2" 100 600 "01:40" "10:00").start
    ∧ (Interval.mk "3" "2" 100 600 "01:40" "10:00",
       Interval.mk "3" "1" 500 100 "08:20" "01:40") ∈
        dayConflictPairs [Interval.mk "3" "1" 500 100 "08:20" "01:40",
                          Interval.mk "3" "2" 100 600 "01:40" "10:00"]
    ∧ checkTimeConflictsOutcome overnightCatalog
        [("selections", PyVal.list [selectionPair 3 1, selectionPair 3 2])] =
      Except.ok ([], ["- Mon: 3[2] 01:40–10:00 conflicts with 3[1] 08:20–01:40"]) :=
  ⟨rfl, by decide, by rfl⟩

theorem sweepPairs_self_of_dup {i : Interval} : ∀ {l : List Interval},
    l.Sorted intervalLE → List.Duplicate i l →
    (∀ j ∈ l, j.start = i.start → j.stop = i.stop → j = i) →
    i.start < i.stop → (i, i) ∈ sweepPairs l := by
  intro l
  induction l with
  | nil => intro _ hd _ _; exact absurd hd (by intro h; cases h)
  | cons a t ih =>
    intro hs hd huniq hwf
    rw [List.sorted_cons] at hs
    cases hd with
    | cons_mem hm =>
      -- the head is `i` and `i` occurs again in the tail
      cases t with
      | nil => simp at hm
      | cons b t' =>
        by_cases hbi : b = i
        · rw [hbi]
          simp only [sweepPairs]
          rw [if_pos hwf]
          exact List.mem_append_left _ (List.mem_singleton.mpr rfl)
        · exfalso
          have hit' : i ∈ t' := by
            rcases hm with _ | hm
            · exact absurd rfl hbi
            · assumption
          have hab : intervalLE i b := hs.1 b (List.mem_cons_self _ _)
          have hbt : intervalLE b i := by
            have hs2 := hs.2
            rw [List.sorted_cons] at hs2
            exact hs2.1 i hit'
          have hkey : b.start = i.start ∧ b.stop = i.stop := by
            unfold intervalLE at hab hbt
            omega
          exact hbi (huniq b (List.mem_cons_of_mem _ (List.mem_cons_self _ _))
            hkey.1 hkey.2)
    | cons_duplicate hd' =>
      have hmem := ih hs.2 hd'
        (fun j hj h1 h2 => huniq j (List.mem_cons_of_mem a hj) h1 h2) hwf
      cases t with
      | nil => exact absurd hd' (by intro h; cases h)
      | cons b t' =>
        simp only [sweepPairs]
        exact List.mem_append_right _ hmem

/-- C10: the handler deduplicates neither the selections list nor a
schedule's day list, and a duplicated interval is reported as a conflict of
the section with itself.  The first conjunct is the general statement: when
an interval occurs at least twice in a day bucket (and no other distinct
interval shares its exact start and end, as when one selection is simply
repeated), the sweep reports the interval against its own copy.  The closed
conjuncts run the full handler: the same (course 7, section 9) selection
sent twice, and a single schedule listing Wednesday twice, each yield a
self-conflict line. -/
theorem duplicate_interval_self_conflict :
    (∀ (l : List Interval) (i : Interval),
        2 ≤ l.count i →
        (∀ j ∈ l, j.start = i.start → j.stop = i.stop → j = i) →
        i.start < i.stop → (i, i) ∈ dayConflictPairs l)
    ∧ checkTimeConflictsOutcome duplicateSelCatalog
        [("selections", PyVal.list [selectionPair 7 9, selectionPair 7 9])] =
      Except.ok ([], ["- Tue: 7[9] 10:00–11:00 conflicts with 7[9] 10:00–11:00"])
    ∧ checkTimeConflictsOutcome duplicateDayCatalog
        [("selections", PyVal.list [selectionPair 7 9])] =
      Except.ok ([], ["- Wed: 7[9] 10:00–11:00 conflicts with 7[9] 10:00–11:00"]) := by
  refine ⟨?_, by rfl, by rfl⟩
  intro l i hc huniq hwf
  unfold dayConflictPairs
  have hsorted : (sortIntervals l).Sorted intervalLE :=
    List.sorted_insertionSort intervalLE l
  have hperm : (sortIntervals l).Perm l := List.perm_insertionSort intervalLE l
  refine sweepPairs_self_of_dup hsorted ?_ ?_ hwf
  · rw [List.duplicate_iff_two_le_count, hperm.count_eq]
    exact hc
  · intro j hj h1 h2
    exact huniq j (hperm.mem_iff.mp hj) h1 h2

/-- Witness for C10: the general conjunct applied to a bucket holding two
copies of the Tuesday 10:00-11:00 interval. -/
theorem duplicate_interval_self_conflict_witness :
    (Interval.mk "7" "9" 600 660 "10:00" "11:00",
     Interval.mk "7" "9" 600 660 "10:00" "11:00") ∈
      dayConflictPairs [Interval.mk "7" "9" 600 660 "10:00" "11:00",
                        Interval.mk "7" "9" 600 660 "10:00" "11:00"] :=
  duplicate_interval_self_conflict.1
    [Interval.mk "7" "9" 600 660 "10:00" "11:00",
     Interval.mk "7" "9" 600 660 "10:00" "11:00"]
    (Interval.mk "7" "9" 600 660 "10:00" "11:00")
    (by decide) (by decide) (by decide)

/-- C1 (code bug): on scenario B — same-day intervals 08:00-12:00,
08:30-09:00 and 11:00-13:00 — the handler reports only the conflict
between interval 1 and interval 2.  The sweep at lines 377-385 compares
each entry only with its immediate predecessor in start-sorted order, so
the overlap between interval 1 and interval 3 (which satisfies the
specification's pairwise overlap test, third conjunct) is not reported:
the emitted conflict list of the Monday bucket omits the (1,3) pair
entirely (second conjunct). -/
theorem adjacent_sweep_misses_contained_overlap :
    checkTimeConflictsOutcome scenarioBCatalog scenarioBArguments =
      Except.ok ([], ["- Mon: 101[1] 08:00–12:00 conflicts with 101[2] 08:30–09:00"])
    ∧ (scenarioBInterval1, scenarioBInterval3) ∉
        dayConflictPairs [scenarioBInterval1,
          Interval.mk "101" "2" 510 540 "08:30" "09:00", scenarioBInterval3]
    ∧ specOverlap scenarioBInterval1 scenarioBInterval3 = true := by
  refine ⟨by rfl, by decide, by decide⟩

theorem processItem_error_of_invalid {catalog : List Course} {item : PyVal}
    (h : selectionInvalid catalog item = true) :
    ∃ e, processItem catalog item = Except.error e := by
  cases item with
  | dict d =>
    by_cases h1 : isPyNumber (pyDictGet d "course_id")
    · by_cases h2 : isPyNumber (pyDictGet d "section_id")
      · cases hfc : findCourse catalog (pyNumVal (pyDictGet d "course_id")) with
        | none =>
          have : processItem catalog (PyVal.dict d) =
              Except.error ("Invalid course_id: " ++ pyStr (pyDictGet d "course_id")) := by
            simp [processItem, h1, h2, hfc]
          exact ⟨_, this⟩
        | some course =>
          cases hfs : findSection course (pyNumVal (pyDictGet d "section_id")) with
          | none =>
            have : processItem catalog (PyVal.dict d) =
                Except.error ("Invalid section_id: " ++ pyStr (pyDictGet d "section_id") ++
                  " for course_id " ++ pyStr (pyDictGet d "course_id")) := by
              simp [processItem, h1, h2, hfc, hfs]
            exact ⟨_, this⟩
          | some sec =>
            exfalso
            simp [selectionInvalid, h1, h2, hfc, hfs] at h
      · have : processItem catalog (PyVal.dict d) =
            Except.error "section_id must be a number." := by
          simp [processItem, h1, h2]
        exact ⟨_, this⟩
    · have : processItem catalog (PyVal.dict d) =
          Except.error "course_id must be a number." := by
        simp [processItem, h1]
      exact ⟨_, this⟩
  | none => exact ⟨_, rfl⟩
  | bool b => exact ⟨_, rfl⟩
  | int n => exact ⟨_, rfl⟩
  | float n => exact ⟨_, rfl⟩
  | str s => exact ⟨_, rfl⟩
  | list xs => exact ⟨_, rfl⟩

theorem processItem_ok_of_valid {catalog : List Course} {item : PyVal}
    (h : selectionInvalid catalog item = false) :
    ∃ r, processItem catalog item = Except.ok r := by
  cases item with
  | dict d =>
    by_cases h1 : isPyNumber (pyDictGet d "course_id")
    · by_cases h2 : isPyNumber (pyDictGet d "section_id")
      · cases hfc : findCourse catalog (pyNumVal (pyDictGet d "course_id")) with
        | none => exfalso; simp [selectionInvalid, h1, h2, hfc] at h
        | some course =>
          cases hfs : findSection course (pyNumVal (pyDictGet d "section_id")) with
          | none => exfalso; simp [selectionInvalid, h1, h2, hfc, hfs] at h
          | some sec =>
            by_cases hsch : sec.schedules = []
            · have : processItem catalog (PyVal.dict d) =
                  Except.ok (["Note: course " ++ pyStr (pyDictGet d "course_id") ++
                    " section " ++ pyStr (pyDictGet d "section_id") ++
                    " has no schedules."], []) := by
                simp [processItem, h1, h2, hfc, hfs, hsch]
              exact ⟨_, this⟩
            · have : processItem catalog (PyVal.dict d) =
                  Except.ok ((sec.schedules.map
                    (processSchedule (pyDictGet d "course_id") (pyDictGet d "section_id"))).foldr
                      (fun p acc => (p.1 ++ acc.1, p.2 ++ acc.2)) ([], [])) := by
                simp [processItem, h1, h2, hfc, hfs, hsch]
              exact ⟨_, this⟩
      · exfalso; simp [selectionInvalid, h1, h2] at h
    · exfalso; simp [selectionInvalid, h1] at h
  | none => exact absurd h (by simp [selectionInvalid])
  | bool b => exact absurd h (by simp [selectionInvalid])
  | int n => exact absurd h (by simp [selectionInvalid])
  | float n => exact absurd h (by simp [selectionInvalid])
  | str s => exact absurd h (by simp [selectionInvalid])
  | list xs => exact absurd h (by simp [selectionInvalid])

theorem collectItems_error_of_mem {catalog : List Course} :
    ∀ {items : List PyVal} {item : PyVal}, item ∈ items →
      selectionInvalid catalog item = true →
      ∃ e, collectItems catalog items = Except.error e := by
  intro items
  induction items with
  | nil => intro item h; simp at h
  | cons x rest ih =>
    intro item hmem hinv
    cases hpx : processItem catalog x with
    | error e => exact ⟨e, by simp [collectItems, hpx]⟩
    | ok r =>
      rcases List.mem_cons.mp hmem with rfl | hmem'
      · obtain ⟨e, he⟩ := processItem_error_of_invalid hinv
        rw [he] at hpx
        exact absurd hpx (by simp)
      · obtain ⟨e, he⟩ := ih hmem' hinv
        exact ⟨e, by simp [collectItems, hpx, he]⟩

theorem collectItems_ok_of_all_valid {catalog : List Course} :
    ∀ {items : List PyVal}, (∀ it ∈ items, selectionInvalid catalog it = false) →
      ∃ r, collectItems catalog items = Except.ok r := by
  intro items
  induction items with
  | nil => intro _; exact ⟨([], []), rfl⟩
  | cons x rest ih =>
    intro hv
    obtain ⟨r, hr⟩ := processItem_ok_of_valid (hv x (List.mem_cons_self _ _))
    obtain ⟨rs, hrs⟩ := ih (fun it hit => hv it (List.mem_cons_of_mem x hit))
    exact ⟨(r.1 ++ rs.1, r.2 ++ rs.2), by simp [collectItems, hr, hrs]⟩

/-- C3: a call whose `selections` argument is not a non-empty list, or one
of whose selections is not an object with numeric `course_id` and
`section_id`, or names an unknown course, or names a section absent from
the resolved course, raises `InvalidArgument` (a `ValueError`/`TypeError`
whose message identifies the offending value): the outcome is an
`Except.error`, which by construction carries no result content, so no
partial result is returned for such a call. -/
theorem conflict_handler_rejects_invalid_selections :
    ∀ (catalog : List Course) (arguments : List (String × PyVal)),
      ((∀ items, pyDictGet arguments "selections" = PyVal.list items → items = []) →
        ∃ e, checkTimeConflictsOutcome catalog arguments = Except.error e)
      ∧ (∀ (items : List PyVal) (item : PyVal),
          pyDictGet arguments "selections" = PyVal.list items → item ∈ items →
          selectionInvalid catalog item = true →
          ∃ e, checkTimeConflictsOutcome catalog arguments = Except.error e) := by
  intro catalog arguments
  constructor
  · intro h
    unfold checkTimeConflictsOutcome
    cases hsel : pyDictGet arguments "selections" with
    | list items =>
      have hempty := h items hsel
      subst hempty
      exact ⟨_, rfl⟩
    | none => exact ⟨_, rfl⟩
    | bool b => exact ⟨_, rfl⟩
    | int n => exact ⟨_, rfl⟩
    | float n => exact ⟨_, rfl⟩
    | str s => exact ⟨_, rfl⟩
    | dict d => exact ⟨_, rfl⟩
  · intro items item hsel hmem hinv
    unfold checkTimeConflictsOutcome
    rw [hsel]
    by_cases hempty : items.isEmpty
    · exact ⟨"\x27selections\x27 must be a non-empty array of \x7bcourse_id, section_id\x7d.",
        by simp [hempty]⟩
    · obtain ⟨e, he⟩ := collectItems_error_of_mem hmem hinv
      exact ⟨e, by simp [hempty, he]⟩

/-- Witness for C3: a call without a `selections` argument errors, and a
call whose selections list contains the bare number 3 (not an object)
errors. -/
theorem conflict_handler_rejects_invalid_selections_witness :
    (∃ e, checkTimeConflictsOutcome [] [] = Except.error e)
    ∧ (∃ e, checkTimeConflictsOutcome []
        [("selections", PyVal.list [PyVal.int 3])] = Except.error e) :=
  ⟨(conflict_handler_rejects_invalid_selections [] []).1
      (fun _ h => PyVal.noConfusion h),
   (conflict_handler_rejects_invalid_selections []
      [("selections", PyVal.list [PyVal.int 3])]).2 [PyVal.int 3] (PyVal.int 3)
      rfl (List.mem_singleton.mpr rfl) rfl⟩

/-- C4: a resolved schedule whose start or end label does not parse, or
which records no meeting days, is excluded non-fatally — its processing
yields exactly one warning and zero intervals (first conjunct), so it adds
nothing to any day bucket and contributes zero conflicts; a call whose
selections all resolve still succeeds (second conjunct), and scenario C
(one TBD schedule next to a normal one) succeeds with exactly one warning
and zero conflicts (third conjunct). -/
theorem unparseable_or_dayless_schedule_excluded :
    (∀ (cid sid : PyVal) (sched : Schedule),
        pyParseTimeToMinutes sched.start_time = Option.none ∨
          pyParseTimeToMinutes sched.end_time = Option.none ∨ sched.days = [] →
        ∃ w, processSchedule cid sid sched = ([w], []))
    ∧ (∀ (catalog : List Course) (items : List PyVal),
        items ≠ [] → (∀ it ∈ items, selectionInvalid catalog it = false) →
        ∃ r, checkTimeConflictsOutcome catalog
          [("selections", PyVal.list items)] = Except.ok r)
    ∧ checkTimeConflictsOutcome scenarioCCatalog
        [("selections", PyVal.list [selectionPair 5 1, selectionPair 5 2])] =
      Except.ok (["Warning: course 5 section 1 has unparseable time window TBD–10:00. Skipping this schedule for conflict checks."], []) := by
  refine ⟨?_, ?_, by rfl⟩
  · intro cid sid sched h
    cases hs : pyParseTimeToMinutes sched.start_time with
    | none =>
      exact ⟨"Warning: course " ++ pyStr cid ++ " section " ++ pyStr sid ++
        " has unparseable time window " ++ pyStrOfOptStr sched.start_time ++ "–" ++
        pyStrOfOptStr sched.end_time ++ ". Skipping this schedule for conflict checks.",
        by simp [processSchedule, hs]⟩
    | some s =>
      cases he : pyParseTimeToMinutes sched.end_time with
      | none =>
        exact ⟨"Warning: course " ++ pyStr cid ++ " section " ++ pyStr sid ++
          " has unparseable time window " ++ pyStrOfOptStr sched.start_time ++ "–" ++
          pyStrOfOptStr sched.end_time ++ ". Skipping this schedule for conflict checks.",
          by simp [processSchedule, hs, he]⟩
      | some e =>
        have hdays : sched.days = [] := by
          rcases h with h | h | h
          · rw [hs] at h; exact absurd h (by simp)
          · rw [he] at h; exact absurd h (by simp)
          · exact h
        exact ⟨"Warning: course " ++ pyStr cid ++ " section " ++ pyStr sid ++
          " schedule has no days. Skipping.",
          by simp [processSchedule, hs, he, hdays]⟩
  · intro catalog items hne hvalid
    obtain ⟨r, hr⟩ := collectItems_ok_of_all_valid hvalid
    have hsel : pyDictGet [("selections", PyVal.list items)] "selections" =
        PyVal.list items := rfl
    have hemp : items.isEmpty = false := by
      cases items with
      | nil => exact absurd rfl hne
      | cons a t => rfl
    refine ⟨(r.1, allConflictLines (buildBuckets r.2)), ?_⟩
    unfold checkTimeConflictsOutcome
    rw [hsel]
    simp [hemp, hr]

/-- Witness for C4: the TBD schedule of scenario C yields one warning and
no intervals, and the call selecting only that section succeeds. -/
theorem unparseable_or_dayless_schedule_excluded_witness :
    (∃ w, processSchedule (PyVal.int 5) (PyVal.int 1)
        ⟨some "TBD", some "10:00", ["Mon"]⟩ = ([w], []))
    ∧ (∃ r, checkTimeConflictsOutcome scenarioCCatalog
        [("selections", PyVal.list [selectionPair 5 1])] = Except.ok r) :=
  ⟨unparseable_or_dayless_schedule_excluded.1 (PyVal.int 5) (PyVal.int 1)
      ⟨some "TBD", some "10:00", ["Mon"]⟩ (Or.inl rfl),
   unparseable_or_dayless_schedule_excluded.2.1 scenarioCCatalog [selectionPair 5 1]
      (by simp) (fun it hit => by rw [List.mem_singleton.mp hit]; rfl)⟩

/-- C6 (code bug): discovery does not catch every exception raised while
invoking an entry point.  First conjunct: a group whose package imports
successfully but whose package-level `register_all` raises makes
`register_all_tools` propagate the exception (completion flag `false`), and
the well-formed second group registers nothing — startup aborts.  The
remaining conjuncts show the behaviour the claim correctly describes for
the other failure shapes: a group that raises on import at every convention
is skipped with the second group unaffected, and a group with no entry
point contributes zero commands without being a failure. -/
theorem discovery_entry_point_exception_propagates :
    registerAllTools [groupEntryRaisesOnInvoke, groupWellFormed] = ([], false)
    ∧ registerAllTools [groupRaisesOnImport, groupWellFormed] = (["good-cmd"], true)
    ∧ registerAllTools [groupWithoutEntry, groupWellFormed] = (["good-cmd"], true) :=
  ⟨rfl, rfl, rfl⟩

/-- C8 (counterexample): not every registered command answers an omitted or
ill-typed required field with `InvalidArgument`.  The weather `get-alert`
handler, called with `state` omitted, returns a success-shaped text content
block instead of a failure; the notification handler silently substitutes
the defaults 1.0, 5 and `unknown` for all three of its omitted required
fields and reports success; and `get_course_handler` silently substitutes
`["Autumn"]` for its omitted required `terms`. -/
theorem handler_validation_counterexample :
    getAlertsHandler (fun _ => []) [] =
      Except.ok ["Invalid state code. Provide a two-letter US state code."]
    ∧ notificationStart [] =
      Except.ok (["Notification 1/5 from caller: unknown",
                  "Notification 2/5 from caller: unknown",
                  "Notification 3/5 from caller: unknown",
                  "Notification 4/5 from caller: unknown",
                  "Notification 5/5 from caller: unknown"],
                 "Sent 5 notifications with 1.0s interval for caller: unknown")
    ∧ getCourseTermsUsed [] = PyVal.list [PyVal.str "Autumn"] :=
  ⟨rfl, rfl, rfl⟩

/-- C8 (amended): required-field validation is handler-owned but not
uniform.  The `list-schools` handler rejects a missing
`include_department_count` with an error naming the field and a mistyped
one with an error naming the expected and actual kinds; the conflict
checker rejects a missing `selections` with an error naming the field; but
the weather `get-alert` handler answers a missing `state` with explanatory
text in a success-shaped result, the notification handler substitutes
defaults for all its omitted required fields, and `get-course` substitutes
the default `["Autumn"]` for its omitted required `terms`. -/
theorem handler_validation_amended :
    (∀ (schools : List School) (arguments : List (String × PyVal)),
        pyDictGet arguments "include_department_count" = PyVal.none →
        listSchoolsHandler schools arguments = Except.error
          "Missing required argument \x27include_department_count\x27 (boolean).")
    ∧ (∀ (schools : List School) (arguments : List (String × PyVal)) (v : PyVal),
        pyDictGet arguments "include_department_count" = v →
        v ≠ PyVal.none → (∀ b, v ≠ PyVal.bool b) →
        listSchoolsHandler schools arguments = Except.error
          ("Invalid type for \x27include_department_count\x27: expected boolean, got "
            ++ pyTypeName v))
    ∧ (∀ (catalog : List Course) (arguments : List (String × PyVal)),
        pyDictGet arguments "selections" = PyVal.none →
        checkTimeConflictsOutcome catalog arguments = Except.error
          "\x27selections\x27 must be a non-empty array of \x7bcourse_id, section_id\x7d.")
    ∧ (∀ (alertsFor : String → List String) (arguments : List (String × PyVal)),
        pyDictGet arguments "state" = PyVal.none →
        getAlertsHandler alertsFor arguments =
          Except.ok ["Invalid state code. Provide a two-letter US state code."])
    ∧ notificationStart [] =
      Except.ok (["Notification 1/5 from caller: unknown",
                  "Notification 2/5 from caller: unknown",
                  "Notification 3/5 from caller: unknown",
                  "Notification 4/5 from caller: unknown",
                  "Notification 5/5 from caller: unknown"],
                 "Sent 5 notifications with 1.0s interval for caller: unknown")
    ∧ getCourseTermsUsed [] = PyVal.list [PyVal.str "Autumn"] := by
  refine ⟨?_, ?_, ?_, ?_, rfl, rfl⟩
  · intro schools arguments h
    unfold listSchoolsHandler
    rw [h]
  · intro schools arguments v hv hnone hbool
    unfold listSchoolsHandler
    rw [hv]
    cases v with
    | none => exact absurd rfl hnone
    | bool b => exact absurd rfl (hbool b)
    | int n => rfl
    | float n => rfl
    | str s => rfl
    | list xs => rfl
    | dict d => rfl
  · intro catalog arguments h
    unfold checkTimeConflictsOutcome
    rw [h]
  · intro alertsFor arguments h
    unfold getAlertsHandler
    rw [h]

/-- Witness for the amended C8: the three quantified conjuncts applied to
concrete calls — empty arguments for list-schools and get-alert, a string
`include_department_count`, and empty arguments for the conflict checker. -/
theorem handler_validation_amended_witness :
    listSchoolsHandler [] [] = Except.error
      "Missing required argument \x27include_department_count\x27 (boolean)."
    ∧ listSchoolsHandler [] [("include_department_count", PyVal.str "yes")] =
      Except.error
        "Invalid type for \x27include_department_count\x27: expected boolean, got str"
    ∧ checkTimeConflictsOutcome [] [] = Except.error
      "\x27selections\x27 must be a non-empty array of \x7bcourse_id, section_id\x7d."
    ∧ getAlertsHandler (fun _ => []) [] =
      Except.ok ["Invalid state code. Provide a two-letter US state code."] :=
  ⟨handler_validation_amended.1 [] [] rfl,
   handler_validation_amended.2.1 [] [("include_department_count", PyVal.str "yes")]
     (PyVal.str "yes") rfl (fun h => PyVal.noConfusion h) (fun _ h => PyVal.noConfusion h),
   handler_validation_amended.2.2.1 [] [] rfl,
   handler_validation_amended.2.2.2.1 (fun _ => []) [] rfl⟩

/-- C9: registering an entry whose name already exists overwrites the prior
entry in place without failing, so after any register the name set stays
duplicate-free: starting from a registry with unique names, the register of
`e` keeps the names unique, leaves exactly one entry named `e.name`, and
`lookup e.name` returns the new entry (last writer wins). -/
theorem registry_register_last_writer_wins :
    ∀ (reg : List RegistryEntry) (e : RegistryEntry),
      (registryNames reg).Nodup →
      (registryNames (registryRegister reg e)).Nodup
      ∧ (registryNames (registryRegister reg e)).count e.name = 1
      ∧ registryLookup (registryRegister reg e) e.name = some e := by
  intro reg e hnd
  unfold registryRegister
  by_cases hex : reg.any (fun x => x.name = e.name)
  · rw [if_pos hex]
    have hnames : registryNames (reg.map (fun x => if x.name = e.name then e else x)) =
        registryNames reg := by
      unfold registryNames
      rw [List.map_map]
      apply List.map_congr_left
      intro x _
      by_cases hx : x.name = e.name
      · simp [hx]
      · simp [hx]
    have hmemname : e.name ∈ registryNames reg := by
      rcases List.any_eq_true.mp hex with ⟨x, hx, hxe⟩
      rcases of_decide_eq_true hxe with hxe
      exact hxe ▸ List.mem_map_of_mem (fun x => x.name) hx
    refine ⟨hnames ▸ hnd, ?_, ?_⟩
    · rw [hnames]
      exact List.count_eq_one_of_mem hnd hmemname
    · unfold registryLookup
      clear hnames hnd hex
      induction reg with
      | nil => simp [registryNames] at hmemname
      | cons x rest ih =>
        by_cases hx : x.name = e.name
        · simp [hx]
        · rw [List.map_cons, if_neg hx]
          rw [List.find?_cons_of_neg _ (by simp [hx])]
          apply ih
          rcases List.mem_cons.mp hmemname with h | h
          · exact absurd h.symm hx
          · exact h
  · rw [if_neg hex]
    have hnot : e.name ∉ registryNames reg := by
      intro hmem
      rcases List.mem_map.mp hmem with ⟨x, hx, hxe⟩
      exact hex (List.any_eq_true.mpr ⟨x, hx, decide_eq_true hxe⟩)
    have hnames : registryNames (reg ++ [e]) = registryNames reg ++ [e.name] := by
      unfold registryNames
      rw [List.map_append]
      rfl
    refine ⟨?_, ?_, ?_⟩
    · rw [hnames]
      exact List.Nodup.append hnd (List.nodup_singleton _)
        (by intro a ha hb; rw [List.mem_singleton] at hb; exact hnot (hb ▸ ha))
    · rw [hnames, List.count_append]
      rw [List.count_eq_zero_of_not_mem hnot]
      simp
    · unfold registryLookup
      rw [List.find?_append]
      have : reg.find? (fun x => x.name = e.name) = Option.none := by
        rw [List.find?_eq_none]
        intro x hx
        simp only [decide_eq_true_eq]
        intro hxe
        exact hnot (hxe ▸ List.mem_map_of_mem (fun x => x.name) hx)
      rw [this]
      simp

/-- Witness for C9: re-registering the name `a` over a one-entry registry
keeps the name unique, keeps exactly one entry for `a`, and makes lookup
return the new payload. -/
theorem registry_register_last_writer_wins_witness :
    (registryNames (registryRegister [⟨"a", 1⟩] ⟨"a", 2⟩)).Nodup
    ∧ (registryNames (registryRegister [⟨"a", 1⟩] ⟨"a", 2⟩)).count "a" = 1
    ∧ registryLookup (registryRegister [⟨"a", 1⟩] ⟨"a", 2⟩) "a" =
      some ⟨"a", 2⟩ :=
  registry_register_last_writer_wins [⟨"a", 1⟩] ⟨"a", 2⟩ (by decide)

end StanfordMCP
